import Mathlib

/-!
Shallow embedding of ms_agent/config/config.py (class Config and its helpers)
and proofs about the configuration resolution engine.

Modelling conventions:
- A loaded OmegaConf document is a finite tree of mappings (ordered
  name/value pairs, as python dicts preserve insertion order), sequences and
  scalars (string, int, bool, null).  DictConfig/ListConfig nodes are the
  mapping/sequence constructors; BaseContainer corresponds to either of them.
- An override dictionary (Dict[str, str]) is an ordered association list with
  unique keys; python dict lookup is List.lookup, python dict assignment
  replaces the value in place when the key exists and appends otherwise.
- Python string operations are modelled on the character list of the string:
  s.startswith(c) looks at the first character, s.endswith(c) at the last,
  s[1:-1] drops the first and last character, s[2:] drops two characters.
- In-place mutation plus exceptions is modelled by state passing: each
  traversal returns the tree as it stands when control leaves the function
  together with a Bool that is true on normal return and false when an
  exception (KeyError / AssertionError) escapes; on an exception the
  already-processed prefix keeps its new values and the rest is untouched,
  exactly like the python in-place loop.
- OmegaConf (2.x) attribute access of a missing key raises
  ConfigAttributeError, a subclass of AttributeError, so hasattr is false for
  a missing key and getattr with a default returns the default; a present
  null value is returned as python None.
-/

inductive ConfigValue where
  | str : String → ConfigValue
  | int : Int → ConfigValue
  | bool : Bool → ConfigValue
  | null : ConfigValue
deriving DecidableEq, Repr

inductive ConfigTree where
  | scalar : ConfigValue → ConfigTree
  | mapping : List (String × ConfigTree) → ConfigTree
  | sequence : List ConfigTree → ConfigTree

/-- Override dictionaries (python Dict[str, str]) as association lists. -/
abbrev OverrideMap := List (String × String)

/-- Python value.startswith of a one-character string: the first character
matches. Used for the placeholder grammar character. -/
def strFirstIsLt (s : String) : Bool := s.data.head? == some '<'

/-- Python value.endswith of a one-character string: the last character
matches. -/
def strLastIsGt (s : String) : Bool := s.data.getLast? == some '>'

/-- Python value with the two-character override marker in front:
value.startswith of a two-character dash-dash string. -/
def strFirstTwoAreDashes (s : String) : Bool :=
  match s.data with
  | '-' :: '-' :: _ => true
  | _ => false

/-- Python s with the first and last character removed, the slice used by the
placeholder grammar. -/
def strInner (s : String) : String := String.mk ((s.data.drop 1).dropLast)

/-- Python s with the first two characters removed, the slice that strips the
dash-dash marker from an override key. -/
def strDropTwo (s : String) : String := String.mk (s.data.drop 2)

mutual

/-- Structural equality of configuration trees (python == on containers). -/
def beqTree : ConfigTree → ConfigTree → Bool
  | .scalar a, .scalar b => a == b
  | .mapping es, .mapping fs => beqEntries es fs
  | .sequence xs, .sequence ys => beqItems xs ys
  | _, _ => false
termination_by structural t => t

/-- Structural equality of mapping entry lists. -/
def beqEntries : List (String × ConfigTree) → List (String × ConfigTree) → Bool
  | [], [] => true
  | (n, v) :: r, (m, w) :: s => n == m && beqTree v w && beqEntries r s
  | _, _ => false
termination_by structural es => es

/-- Structural equality of sequence item lists. -/
def beqItems : List ConfigTree → List ConfigTree → Bool
  | [], [] => true
  | v :: r, w :: s => beqTree v w && beqItems r s
  | _, _ => false
termination_by structural xs => xs

end

mutual

theorem beqTree_iff : ∀ a b, beqTree a b = true ↔ a = b
  | .scalar a, .scalar b => by simp [beqTree]
  | .scalar _, .mapping _ => by simp [beqTree]
  | .scalar _, .sequence _ => by simp [beqTree]
  | .mapping _, .scalar _ => by simp [beqTree]
  | .mapping es, .mapping fs => by
    have h := beqEntries_iff es fs
    simp [beqTree, h]
  | .mapping _, .sequence _ => by simp [beqTree]
  | .sequence _, .scalar _ => by simp [beqTree]
  | .sequence _, .mapping _ => by simp [beqTree]
  | .sequence xs, .sequence ys => by
    have h := beqItems_iff xs ys
    simp [beqTree, h]

theorem beqEntries_iff : ∀ es fs, beqEntries es fs = true ↔ es = fs
  | [], [] => by simp [beqEntries]
  | [], _ :: _ => by simp [beqEntries]
  | _ :: _, [] => by simp [beqEntries]
  | (n, v) :: r, (m, w) :: s => by
    have h1 := beqTree_iff v w
    have h2 := beqEntries_iff r s
    simp [beqEntries, h1, h2, Prod.ext_iff, and_assoc]

theorem beqItems_iff : ∀ xs ys, beqItems xs ys = true ↔ xs = ys
  | [], [] => by simp [beqItems]
  | [], _ :: _ => by simp [beqItems]
  | _ :: _, [] => by simp [beqItems]
  | v :: r, w :: s => by
    have h1 := beqTree_iff v w
    have h2 := beqItems_iff r s
    simp [beqItems, h1, h2]

end

instance : DecidableEq ConfigTree := fun a b => decidable_of_iff _ (beqTree_iff a b)

namespace Config

/-- The placeholder test of traverse_config (config.py lines 208-210 and
223-225): the value is a python str, starts with the open angle character,
ends with the close angle character, and the token between them is a key of
extra. -/
def placeholderHit (sv : ConfigValue) (extra : OverrideMap) : Bool :=
  match sv with
  | .str s => strFirstIsLt s && strLastIsGt s && (extra.lookup (strInner s)).isSome
  | _ => false

mutual

/-- One iteration of the DictConfig loop of traverse_config (config.py lines
198-212) for the pair (name, v).  Containers are only recursed into.  For a
scalar: when name is a key of extra both the direct-match branch (line 206)
and, if the placeholder test also fires, the placeholder branch (line 212)
assign extra[name] - line 212 reads extra[name], not extra[token] - so the
net effect is a single assignment of extra[name]; when name is not a key of
extra and the placeholder test fires, the lookup extra[name] on line 212
raises KeyError and the value is left untouched (the Bool result false
records the escaping exception). -/
def stepEntry (extra : OverrideMap) (name : String) (v : ConfigTree) :
    (String × ConfigTree) × Bool :=
  match v with
  | .mapping ms =>
    let r := traverseEntries extra ms
    ((name, .mapping r.1), r.2)
  | .sequence ss =>
    let r := traverseItems extra ss
    ((name, .sequence r.1), r.2)
  | .scalar sv =>
    match extra.lookup name with
    | some x => ((name, .scalar (.str x)), true)
    | none =>
      if placeholderHit sv extra then ((name, .scalar sv), false)
      else ((name, .scalar sv), true)
termination_by structural v

/-- One iteration of the ListConfig loop of traverse_config (config.py lines
216-227): containers are recursed into, a scalar that passes the placeholder
test is replaced by extra[token] (line 227 uses the token correctly), and
other scalars are left untouched; this branch cannot raise. -/
def stepItem (extra : OverrideMap) (v : ConfigTree) : ConfigTree × Bool :=
  match v with
  | .mapping ms =>
    let r := traverseEntries extra ms
    (.mapping r.1, r.2)
  | .sequence ss =>
    let r := traverseItems extra ss
    (.sequence r.1, r.2)
  | .scalar sv =>
    match sv with
    | .str s =>
      if strFirstIsLt s && strLastIsGt s then
        match extra.lookup (strInner s) with
        | some x => (.scalar (.str x), true)
        | none => (.scalar (.str s), true)
      else (.scalar sv, true)
    | _ => (.scalar sv, true)
termination_by structural v

/-- The DictConfig loop of traverse_config (config.py lines 198-212),
processing the entries in order; when an iteration raises, the processed
prefix keeps its new values and the remaining entries are untouched. -/
def traverseEntries (extra : OverrideMap) :
    (es : List (String × ConfigTree)) → List (String × ConfigTree) × Bool
  | [] => ([], true)
  | (n, v) :: rest =>
    let h := stepEntry extra n v
    if h.2 then
      let r := traverseEntries extra rest
      (h.1 :: r.1, r.2)
    else (h.1 :: rest, false)
termination_by structural es => es

/-- The ListConfig loop of traverse_config (config.py lines 216-227). -/
def traverseItems (extra : OverrideMap) :
    (xs : List ConfigTree) → List ConfigTree × Bool
  | [] => ([], true)
  | v :: rest =>
    let h := stepItem extra v
    if h.2 then
      let r := traverseItems extra rest
      (h.1 :: r.1, r.2)
    else (h.1 :: rest, false)
termination_by structural xs => xs

end

/-- traverse_config (config.py lines 194-227): dispatch on the node kind;
a scalar root falls through both isinstance checks and is a no-op. -/
def traverse_config (extra : OverrideMap) (t : ConfigTree) : ConfigTree × Bool :=
  match t with
  | .scalar v => (.scalar v, true)
  | .mapping es =>
    let r := traverseEntries extra es
    (.mapping r.1, r.2)
  | .sequence xs =>
    let r := traverseItems extra xs
    (.sequence r.1, r.2)

/-- Config._update_config (config.py lines 178-231).  The python guard
if not extra: return config (lines 191-192) returns without traversing when
extra is None or empty; both are modelled by the empty list. -/
def update_config (config : ConfigTree) (extra : OverrideMap) :
    ConfigTree × Bool :=
  if extra.isEmpty then (config, true) else traverse_config extra config

/-- Python dict assignment d[k] = v: replace in place when the key exists,
append otherwise. -/
def dictInsert (m : OverrideMap) (k v : String) : OverrideMap :=
  if (m.lookup k).isSome then m.map (fun p => if p.1 == k then (k, v) else p)
  else m ++ [(k, v)]

/-- The loop of Config.parse_args (config.py lines 167-175) over the tail of
the unknown-argument list.  The python loop is
for idx in range(1, len(unknown) - 1, 2), that is: it starts at index 1 (the
first unknown token is never read as a key) and consumes pairs while at least
two tokens remain; a trailing token without a partner is ignored.  The assert
on line 172 (key must start with the dash-dash marker) is modelled by the
none result. -/
def parse_args_loop (acc : OverrideMap) : List String → Option OverrideMap
  | k :: v :: rest =>
    if strFirstTwoAreDashes k then parse_args_loop (dictInsert acc (strDropTwo k) v) rest
    else none
  | _ => some acc

/-- Config.parse_args (config.py lines 153-176), as a function of the
unknown-argument list returned by parse_known_args (with no declared options
this is the full argument vector after the program name).  none models the
AssertionError of line 172. -/
def parse_args (unknown : List String) : Option OverrideMap :=
  if unknown.isEmpty then some [] else parse_args_loop [] (unknown.drop 1)

/-- The result of the resolution pipeline: ok carries the tree on normal
return, err carries the tree as it stands at the moment the exception is
raised (merges are in place, so a caller that catches the exception observes
exactly this tree). -/
inductive PipeResult where
  | ok : ConfigTree → PipeResult
  | err : ConfigTree → PipeResult
deriving DecidableEq

/-- The merge phase of Config.from_task (config.py lines 106-112): first
cls._update_config(config, envs) with the environment-derived overrides,
then cls.parse_args(), then cls._update_config(config, _dict_config) with
the command-line overrides, in that order.  envs is the map produced by
Env.load_env and unknown is the unknown-argument list seen by parse_args. -/
def from_task_merges (config : ConfigTree) (envs : OverrideMap)
    (unknown : List String) : PipeResult :=
  let r1 := update_config config envs
  if r1.2 then
    match parse_args unknown with
    | none => .err r1.1
    | some cli =>
      let r2 := update_config r1.1 cli
      if r2.2 then .ok r2.1 else .err r2.1
  else .err r1.1

end Config

namespace Config

/-- Each iteration of the DictConfig loop handles its pair independently, so
the merged entry list can be read off positionally: a scalar entry whose name
is a key of extra comes out as extra[name] whenever the traversal returns
normally. -/
theorem traverseEntries_direct (extra : OverrideMap) :
    ∀ (es : List (String × ConfigTree)) (i : Nat) (name : String)
      (v : ConfigValue) (x : String),
      es[i]? = some (name, ConfigTree.scalar v) →
      extra.lookup name = some x →
      (traverseEntries extra es).2 = true →
      (traverseEntries extra es).1[i]? = some (name, ConfigTree.scalar (.str x)) := by
  intro es
  induction es with
  | nil => intro i name v x hget _ _; simp at hget
  | cons p rest ih =>
    intro i name v x hget hx hok
    obtain ⟨n, v0⟩ := p
    rw [traverseEntries] at hok ⊢
    by_cases hs : (stepEntry extra n v0).2 = true
    · simp only [hs, if_true] at hok ⊢
      cases i with
      | zero =>
        simp only [List.getElem?_cons_zero, Option.some.injEq, Prod.mk.injEq] at hget
        obtain ⟨hn, hv⟩ := hget
        subst hn hv
        simp [stepEntry, hx]
      | succ j =>
        simp only [List.getElem?_cons_succ] at hget ⊢
        exact ih j name v x hget hx hok
    · simp only [hs, if_false] at hok
      simp at hok

/-- update_config on a mapping root with a nonempty override map is the
DictConfig traversal. -/
theorem update_config_mapping (extra : OverrideMap)
    (es : List (String × ConfigTree)) (hne : extra.isEmpty = false) :
    update_config (ConfigTree.mapping es) extra
      = (ConfigTree.mapping (traverseEntries extra es).1,
          (traverseEntries extra es).2) := by
  simp [update_config, hne, traverse_config]

/-- A nonempty association list is not isEmpty whenever a lookup succeeds. -/
theorem lookup_ne_isEmpty {m : OverrideMap} {k x : String}
    (h : m.lookup k = some x) : m.isEmpty = false := by
  cases m with
  | nil => simp at h
  | cons a l => rfl

/-- Decomposition of a normal return of the merge phase of from_task: both
merge passes returned normally and the final tree is the result of the
command-line pass applied to the result of the environment pass. -/
theorem from_task_merges_ok (config : ConfigTree) (envs : OverrideMap)
    (unknown : List String) (cli : OverrideMap) (final : ConfigTree)
    (h : from_task_merges config envs unknown = PipeResult.ok final)
    (hp : parse_args unknown = some cli) :
    (update_config config envs).2 = true ∧
    (update_config (update_config config envs).1 cli).2 = true ∧
    final = (update_config (update_config config envs).1 cli).1 := by
  rw [from_task_merges] at h
  cases hb1 : (update_config config envs).2 with
  | false => simp [hb1] at h
  | true =>
    simp only [hb1, if_true, hp] at h
    cases hb2 : (update_config (update_config config envs).1 cli).2 with
    | false => simp [hb2] at h
    | true =>
      simp only [hb2, if_true, PipeResult.ok.injEq] at h
      exact ⟨rfl, rfl, h.symm⟩

end Config

/-- C1: for a mapping entry whose scalar value is a placeholder over a key of
extra while the entry name itself is not a key of extra, the claim says the
value is replaced by extra[token].  The code instead evaluates extra[name] on
config.py line 212, which raises KeyError: on the claimed input the merge
aborts with the tree unchanged (tested here: the entry keeps the literal
placeholder string and the error flag is false), while the sibling ListConfig
branch on line 227 and the log message show the intended value was
extra[token]. -/
theorem C1_dict_placeholder_raises_keyerror :
    Config.update_config
        (ConfigTree.mapping [("model", ConfigTree.scalar (.str "<model_name>"))])
        [("model_name", "qwen-max")]
      = (ConfigTree.mapping [("model", ConfigTree.scalar (.str "<model_name>"))], false) := rfl

/-- C2: the claim says an argument list consisting solely of dash-dash
key/value pairs parses to the map of exactly those pairs.  The loop of
parse_args starts at index 1, so the first token is skipped: a single pair
parses to the empty map, and with two pairs the parser reads the value of the
first pair as a key and the AssertionError of line 172 fires (none). -/
theorem C2_parse_args_skips_first_token :
    Config.parse_args ["--a", "1"] = some [] ∧
    Config.parse_args ["--a", "1", "--b", "2"] = none := ⟨rfl, rfl⟩

/-- C7: merging with an empty (or absent, both falsy in python) override map
returns the tree unchanged; the guard on config.py lines 191-192 returns
before the traversal starts. -/
theorem C7_empty_override_is_noop (t : ConfigTree) :
    Config.update_config t [] = (t, true) := rfl

/-- C3: counterexample to the claim that a malformed argument list makes
resolution fail before any merge pass has mutated the tree.  from_task runs
the environment merge pass (line 108) before it calls parse_args (line 111):
on a base tree with entry model = base, environment override model = env-value
and the malformed argument list run bad arg (the token bad is scanned as an
override key and does not start with the dash-dash marker), the pipeline
raises with the tree already holding env-value, which differs from the loaded
tree.  Moreover an override key missing its paired value (run dash-dash-a)
raises nothing at all: the trailing token is silently ignored and resolution
completes normally. -/
theorem C3_counterexample :
    Config.from_task_merges
        (ConfigTree.mapping [("model", ConfigTree.scalar (.str "base"))])
        [("model", "env-value")] ["run", "bad", "arg"]
      = Config.PipeResult.err
          (ConfigTree.mapping [("model", ConfigTree.scalar (.str "env-value"))]) ∧
    ConfigTree.mapping [("model", ConfigTree.scalar (.str "env-value"))] ≠
      ConfigTree.mapping [("model", ConfigTree.scalar (.str "base"))] ∧
    Config.from_task_merges
        (ConfigTree.mapping [("model", ConfigTree.scalar (.str "base"))])
        [("model", "env-value")] ["run", "--a"]
      = Config.PipeResult.ok
          (ConfigTree.mapping [("model", ConfigTree.scalar (.str "env-value"))]) :=
  ⟨rfl, by decide, rfl⟩

/-- C3 amended: when a scanned override-key token does not begin with the
dash-dash marker, parse_args raises AssertionError and resolution fails
fatally before the command-line merge pass is applied, but after the
environment-override pass: at the moment the error is raised the tree is
exactly the result of the environment merge (which may already have mutated
it).  A trailing override key missing its paired value raises no error and is
silently ignored. -/
theorem C3_error_after_env_merge (config : ConfigTree) (envs : OverrideMap)
    (unknown : List String)
    (hparse : Config.parse_args unknown = none)
    (henv : (Config.update_config config envs).2 = true) :
    Config.from_task_merges config envs unknown =
      Config.PipeResult.err (Config.update_config config envs).1 := by
  simp [Config.from_task_merges, henv, hparse]

/-- C3 witness: the amended theorem applied at a concrete input. -/
theorem C3_error_after_env_merge_witness :
    Config.parse_args ["run", "bad", "arg"] = none ∧
    (Config.update_config
        (ConfigTree.mapping [("model", ConfigTree.scalar (.str "base"))])
        [("model", "env-value")]).2 = true ∧
    Config.from_task_merges
        (ConfigTree.mapping [("model", ConfigTree.scalar (.str "base"))])
        [("model", "env-value")] ["run", "bad", "arg"]
      = Config.PipeResult.err
          (Config.update_config
            (ConfigTree.mapping [("model", ConfigTree.scalar (.str "base"))])
            [("model", "env-value")]).1 :=
  ⟨rfl, rfl,
    C3_error_after_env_merge
      (ConfigTree.mapping [("model", ConfigTree.scalar (.str "base"))])
      [("model", "env-value")] ["run", "bad", "arg"] rfl rfl⟩

/-- C5: for a mapping entry (name, value) with value a scalar and name a key
of the override map, after a merge that returns normally the entry holds
extra[name].  This includes the case where value is also a placeholder over
another key k of extra: on config.py lines 204-212 the direct-match branch
assigns extra[name] and the placeholder branch, when it fires as well, reads
extra[name] again (not extra[k]), so the final value is extra[name]. -/
theorem C5_direct_match_wins (es : List (String × ConfigTree))
    (extra : OverrideMap) (i : Nat) (name : String) (v : ConfigValue)
    (x : String) (t : ConfigTree)
    (hget : es[i]? = some (name, ConfigTree.scalar v))
    (hx : extra.lookup name = some x)
    (hok : Config.update_config (ConfigTree.mapping es) extra = (t, true)) :
    ∃ es2, t = ConfigTree.mapping es2 ∧
      es2[i]? = some (name, ConfigTree.scalar (.str x)) := by
  have hne := Config.lookup_ne_isEmpty hx
  rw [Config.update_config_mapping extra es hne, Prod.mk.injEq] at hok
  obtain ⟨h1, h2⟩ := hok
  exact ⟨(Config.traverseEntries extra es).1, h1.symm,
    Config.traverseEntries_direct extra es i name v x hget hx h2⟩

/-- C5 witness: entry model holds the placeholder string over key k, extra
maps model to direct and k to indirect; the merged value is direct, the
direct-match value, not indirect. -/
theorem C5_direct_match_wins_witness :
    ([("model", ConfigTree.scalar (.str "<k>"))] :
        List (String × ConfigTree))[0]? = some ("model", ConfigTree.scalar (.str "<k>")) ∧
    ([("model", "direct"), ("k", "indirect")] : OverrideMap).lookup "model" = some "direct" ∧
    Config.update_config (ConfigTree.mapping [("model", ConfigTree.scalar (.str "<k>"))])
        [("model", "direct"), ("k", "indirect")]
      = (ConfigTree.mapping [("model", ConfigTree.scalar (.str "direct"))], true) ∧
    (∃ es2, ConfigTree.mapping [("model", ConfigTree.scalar (.str "direct"))]
        = ConfigTree.mapping es2 ∧
      es2[0]? = some ("model", ConfigTree.scalar (.str "direct"))) :=
  ⟨rfl, rfl, rfl,
    C5_direct_match_wins [("model", ConfigTree.scalar (.str "<k>"))]
      [("model", "direct"), ("k", "indirect")] 0 "model" (.str "<k>") "direct"
      (ConfigTree.mapping [("model", ConfigTree.scalar (.str "direct"))])
      rfl rfl rfl⟩

/-- C6: the merge phase of from_task applies exactly two merge passes in a
fixed order - config.py line 108 merges the environment-derived overrides,
line 112 merges the command-line overrides - so when the same key targets a
scalar mapping entry through both maps and the pipeline returns normally, the
entry ends up holding the command-line value. -/
theorem C6_cli_overrides_env (es : List (String × ConfigTree))
    (envs cli : OverrideMap) (unknown : List String)
    (i : Nat) (name : String) (v : ConfigValue) (ev cv : String)
    (final : ConfigTree)
    (hok : Config.from_task_merges (ConfigTree.mapping es) envs unknown
            = Config.PipeResult.ok final)
    (hget : es[i]? = some (name, ConfigTree.scalar v))
    (henv : envs.lookup name = some ev)
    (hcli0 : Config.parse_args unknown = some cli)
    (hcli : cli.lookup name = some cv) :
    ∃ es2, final = ConfigTree.mapping es2 ∧
      es2[i]? = some (name, ConfigTree.scalar (.str cv)) := by
  have henvne := Config.lookup_ne_isEmpty henv
  have hcline := Config.lookup_ne_isEmpty hcli
  obtain ⟨hb1, hb2, hfinal⟩ :=
    Config.from_task_merges_ok _ envs unknown cli final hok hcli0
  rw [Config.update_config_mapping envs es henvne] at hb1 hb2 hfinal
  dsimp only at hb1 hb2 hfinal
  rw [Config.update_config_mapping cli _ hcline] at hb2 hfinal
  dsimp only at hb2 hfinal
  have l1get := Config.traverseEntries_direct envs es i name v ev hget henv hb1
  have l2get := Config.traverseEntries_direct cli
    (Config.traverseEntries envs es).1 i name (.str ev) cv l1get hcli hb2
  exact ⟨(Config.traverseEntries cli (Config.traverseEntries envs es).1).1,
    hfinal, l2get⟩

/-- C6 witness: key retries is overridden to 4 by the environment map and to
5 by the command-line map parsed from run dash-dash-retries 5; the final
value is the command-line value 5. -/
theorem C6_cli_overrides_env_witness :
    Config.from_task_merges
        (ConfigTree.mapping [("retries", ConfigTree.scalar (.str "3"))])
        [("retries", "4")] ["run", "--retries", "5"]
      = Config.PipeResult.ok
          (ConfigTree.mapping [("retries", ConfigTree.scalar (.str "5"))]) ∧
    Config.parse_args ["run", "--retries", "5"] = some [("retries", "5")] ∧
    (∃ es2, ConfigTree.mapping [("retries", ConfigTree.scalar (.str "5"))]
        = ConfigTree.mapping es2 ∧
      es2[0]? = some ("retries", ConfigTree.scalar (.str "5"))) :=
  ⟨rfl, rfl,
    C6_cli_overrides_env [("retries", ConfigTree.scalar (.str "3"))]
      [("retries", "4")] [("retries", "5")] ["run", "--retries", "5"]
      0 "retries" (.str "3") "4" "5"
      (ConfigTree.mapping [("retries", ConfigTree.scalar (.str "5"))])
      rfl rfl rfl rfl rfl⟩

mutual

/-- Two trees have the same shape when mapping nodes carry the same key list,
sequence nodes the same length, corresponding positions the same node kind,
and only scalar leaves may differ. -/
def sameShape : ConfigTree → ConfigTree → Bool
  | .scalar _, .scalar _ => true
  | .mapping es, .mapping fs => sameShapeEntries es fs
  | .sequence xs, .sequence ys => sameShapeItems xs ys
  | _, _ => false
termination_by structural a => a

/-- Same shape for mapping entry lists: equal length, equal names in order,
same shape at each value. -/
def sameShapeEntries : List (String × ConfigTree) → List (String × ConfigTree) → Bool
  | [], [] => true
  | p :: r, q :: s => p.1 == q.1 && sameShape p.2 q.2 && sameShapeEntries r s
  | _, _ => false
termination_by structural es => es

/-- Same shape for sequence item lists: equal length, same shape pointwise. -/
def sameShapeItems : List ConfigTree → List ConfigTree → Bool
  | [], [] => true
  | v :: r, w :: s => sameShape v w && sameShapeItems r s
  | _, _ => false
termination_by structural xs => xs

end

mutual

theorem sameShape_refl : ∀ t, sameShape t t = true
  | .scalar _ => by simp [sameShape]
  | .mapping es => by
    have h := sameShapeEntries_refl es
    simp [sameShape, h]
  | .sequence xs => by
    have h := sameShapeItems_refl xs
    simp [sameShape, h]

theorem sameShapeEntries_refl : ∀ es, sameShapeEntries es es = true
  | [] => by simp [sameShapeEntries]
  | (n, v) :: r => by
    have h1 := sameShape_refl v
    have h2 := sameShapeEntries_refl r
    simp [sameShapeEntries, h1, h2]

theorem sameShapeItems_refl : ∀ xs, sameShapeItems xs xs = true
  | [] => by simp [sameShapeItems]
  | v :: r => by
    have h1 := sameShape_refl v
    have h2 := sameShapeItems_refl r
    simp [sameShapeItems, h1, h2]

end

/-- Unfolding equation for stepEntry at a mapping value; holds by
definitional reduction of the structural recursion. -/
theorem Config.stepEntry_mapping_eq (extra : OverrideMap) (n : String)
    (ms : List (String × ConfigTree)) :
    Config.stepEntry extra n (.mapping ms)
      = ((n, .mapping (Config.traverseEntries extra ms).1),
          (Config.traverseEntries extra ms).2) := rfl

/-- Unfolding equation for stepEntry at a sequence value. -/
theorem Config.stepEntry_sequence_eq (extra : OverrideMap) (n : String)
    (ss : List ConfigTree) :
    Config.stepEntry extra n (.sequence ss)
      = ((n, .sequence (Config.traverseItems extra ss).1),
          (Config.traverseItems extra ss).2) := rfl

/-- Unfolding equation for stepEntry at a scalar value. -/
theorem Config.stepEntry_scalar_eq (extra : OverrideMap) (n : String)
    (sv : ConfigValue) :
    Config.stepEntry extra n (.scalar sv)
      = (match extra.lookup n with
        | some x => ((n, ConfigTree.scalar (.str x)), true)
        | none =>
          if Config.placeholderHit sv extra then ((n, ConfigTree.scalar sv), false)
          else ((n, ConfigTree.scalar sv), true)) := rfl

/-- Unfolding equation for stepItem at a mapping value. -/
theorem Config.stepItem_mapping_eq (extra : OverrideMap)
    (ms : List (String × ConfigTree)) :
    Config.stepItem extra (.mapping ms)
      = (.mapping (Config.traverseEntries extra ms).1,
          (Config.traverseEntries extra ms).2) := rfl

/-- Unfolding equation for stepItem at a sequence value. -/
theorem Config.stepItem_sequence_eq (extra : OverrideMap) (ss : List ConfigTree) :
    Config.stepItem extra (.sequence ss)
      = (.sequence (Config.traverseItems extra ss).1,
          (Config.traverseItems extra ss).2) := rfl

/-- Unfolding equation for stepItem at a string scalar. -/
theorem Config.stepItem_str_eq (extra : OverrideMap) (s : String) :
    Config.stepItem extra (.scalar (.str s))
      = (if strFirstIsLt s && strLastIsGt s then
          match extra.lookup (strInner s) with
          | some x => (ConfigTree.scalar (.str x), true)
          | none => (ConfigTree.scalar (.str s), true)
        else (ConfigTree.scalar (.str s), true)) := rfl

/-- Unfolding equation for traverseEntries at nil. -/
theorem Config.traverseEntries_nil_eq (extra : OverrideMap) :
    Config.traverseEntries extra [] = ([], true) := rfl

/-- Unfolding equation for traverseEntries at cons. -/
theorem Config.traverseEntries_cons_eq (extra : OverrideMap) (n : String)
    (v : ConfigTree) (rest : List (String × ConfigTree)) :
    Config.traverseEntries extra ((n, v) :: rest)
      = (if (Config.stepEntry extra n v).2 then
          ((Config.stepEntry extra n v).1 :: (Config.traverseEntries extra rest).1,
            (Config.traverseEntries extra rest).2)
        else ((Config.stepEntry extra n v).1 :: rest, false)) := rfl

/-- Unfolding equation for traverseItems at nil. -/
theorem Config.traverseItems_nil_eq (extra : OverrideMap) :
    Config.traverseItems extra [] = ([], true) := rfl

/-- Unfolding equation for traverseItems at cons. -/
theorem Config.traverseItems_cons_eq (extra : OverrideMap) (v : ConfigTree)
    (rest : List ConfigTree) :
    Config.traverseItems extra (v :: rest)
      = (if (Config.stepItem extra v).2 then
          ((Config.stepItem extra v).1 :: (Config.traverseItems extra rest).1,
            (Config.traverseItems extra rest).2)
        else ((Config.stepItem extra v).1 :: rest, false)) := rfl

/-- Unfolding equation for sameShape on two scalars. -/
theorem sameShape_scalar_eq (a b : ConfigValue) :
    sameShape (.scalar a) (.scalar b) = true := rfl

/-- Unfolding equation for sameShape on two mappings. -/
theorem sameShape_mapping_eq (es fs : List (String × ConfigTree)) :
    sameShape (.mapping es) (.mapping fs) = sameShapeEntries es fs := rfl

/-- Unfolding equation for sameShape on two sequences. -/
theorem sameShape_sequence_eq (xs ys : List ConfigTree) :
    sameShape (.sequence xs) (.sequence ys) = sameShapeItems xs ys := rfl

/-- Unfolding equation for sameShapeEntries at nil. -/
theorem sameShapeEntries_nil_eq : sameShapeEntries [] [] = true := rfl

/-- Unfolding equation for sameShapeEntries at cons. -/
theorem sameShapeEntries_cons_eq (p q : String × ConfigTree)
    (r s : List (String × ConfigTree)) :
    sameShapeEntries (p :: r) (q :: s)
      = (p.1 == q.1 && sameShape p.2 q.2 && sameShapeEntries r s) := rfl

/-- Unfolding equation for sameShapeItems at nil. -/
theorem sameShapeItems_nil_eq : sameShapeItems [] [] = true := rfl

/-- Unfolding equation for sameShapeItems at cons. -/
theorem sameShapeItems_cons_eq (v w : ConfigTree) (r s : List ConfigTree) :
    sameShapeItems (v :: r) (w :: s)
      = (sameShape v w && sameShapeItems r s) := rfl

mutual

theorem stepEntry_shape : ∀ (extra : OverrideMap) (n : String) (v : ConfigTree),
    (Config.stepEntry extra n v).1.1 = n ∧
      sameShape v (Config.stepEntry extra n v).1.2 = true
  | extra, n, .mapping ms => by
    have h := traverseEntries_shape extra ms
    simp [Config.stepEntry_mapping_eq, sameShape_mapping_eq, h]
  | extra, n, .sequence ss => by
    have h := traverseItems_shape extra ss
    simp [Config.stepEntry_sequence_eq, sameShape_sequence_eq, h]
  | extra, n, .scalar sv => by
    cases hx : extra.lookup n with
    | some x => simp [Config.stepEntry_scalar_eq, hx, sameShape_scalar_eq]
    | none =>
      cases hp : Config.placeholderHit sv extra with
      | true => simp [Config.stepEntry_scalar_eq, hx, hp, sameShape_scalar_eq]
      | false => simp [Config.stepEntry_scalar_eq, hx, hp, sameShape_scalar_eq]
termination_by extra n v => sizeOf v

theorem stepItem_shape : ∀ (extra : OverrideMap) (v : ConfigTree),
    sameShape v (Config.stepItem extra v).1 = true
  | extra, .mapping ms => by
    have h := traverseEntries_shape extra ms
    simp [Config.stepItem_mapping_eq, sameShape_mapping_eq, h]
  | extra, .sequence ss => by
    have h := traverseItems_shape extra ss
    simp [Config.stepItem_sequence_eq, sameShape_sequence_eq, h]
  | extra, .scalar sv => by
    cases sv with
    | str s =>
      cases hd : strFirstIsLt s && strLastIsGt s with
      | true =>
        cases hx : extra.lookup (strInner s) with
        | some x => simp [Config.stepItem_str_eq, hd, hx, sameShape_scalar_eq]
        | none => simp [Config.stepItem_str_eq, hd, hx, sameShape_scalar_eq]
      | false => simp [Config.stepItem_str_eq, hd, sameShape_scalar_eq]
    | int m => exact sameShape_scalar_eq (.int m) (.int m)
    | bool b => exact sameShape_scalar_eq (.bool b) (.bool b)
    | null => exact sameShape_scalar_eq .null .null
termination_by extra v => sizeOf v

theorem traverseEntries_shape : ∀ (extra : OverrideMap)
    (es : List (String × ConfigTree)),
    sameShapeEntries es (Config.traverseEntries extra es).1 = true
  | extra, [] => by simp [Config.traverseEntries_nil_eq, sameShapeEntries_nil_eq]
  | extra, (n, v) :: rest => by
    have hstep := stepEntry_shape extra n v
    cases hs : (Config.stepEntry extra n v).2 with
    | true =>
      have hrest := traverseEntries_shape extra rest
      simp [Config.traverseEntries_cons_eq, hs, sameShapeEntries_cons_eq,
        hstep.1, hstep.2, hrest]
    | false =>
      have hrest := sameShapeEntries_refl rest
      simp [Config.traverseEntries_cons_eq, hs, sameShapeEntries_cons_eq,
        hstep.1, hstep.2, hrest]
termination_by extra es => sizeOf es

theorem traverseItems_shape : ∀ (extra : OverrideMap) (xs : List ConfigTree),
    sameShapeItems xs (Config.traverseItems extra xs).1 = true
  | extra, [] => by simp [Config.traverseItems_nil_eq, sameShapeItems_nil_eq]
  | extra, v :: rest => by
    have hstep := stepItem_shape extra v
    cases hs : (Config.stepItem extra v).2 with
    | true =>
      have hrest := traverseItems_shape extra rest
      simp [Config.traverseItems_cons_eq, hs, sameShapeItems_cons_eq, hstep, hrest]
    | false =>
      have hrest := sameShapeItems_refl rest
      simp [Config.traverseItems_cons_eq, hs, sameShapeItems_cons_eq, hstep, hrest]
termination_by extra xs => sizeOf xs

end

/-- The traversal of traverse_config preserves the shape of any node. -/
theorem traverse_config_shape (extra : OverrideMap) (t : ConfigTree) :
    sameShape t (Config.traverse_config extra t).1 = true := by
  cases t with
  | scalar v => simp [Config.traverse_config, sameShape]
  | mapping es =>
    have h := traverseEntries_shape extra es
    simp [Config.traverse_config, sameShape, h]
  | sequence xs =>
    have h := traverseItems_shape extra xs
    simp [Config.traverse_config, sameShape, h]

/-- C10: whenever _update_config returns normally the merged tree has the
same shape as the input: every mapping node keeps exactly its key list, every
sequence node keeps its length, only scalar values at existing positions are
replaced, and no position changes between the scalar, mapping and sequence
kinds.  (The shape is in fact preserved even on the exceptional paths, but
the claim only concerns normal returns.) -/
theorem C10_merge_preserves_shape (t : ConfigTree) (extra : OverrideMap)
    (t2 : ConfigTree) (hok : Config.update_config t extra = (t2, true)) :
    sameShape t t2 = true := by
  have h : sameShape t (Config.update_config t extra).1 = true := by
    rw [Config.update_config]
    by_cases he : extra.isEmpty
    · simp [he, sameShape_refl]
    · simp [he, traverse_config_shape]
  rw [hok] at h
  exact h

/-- C10 witness: a merge that rewrites a placeholder inside a sequence
returns normally and preserves the shape of the tree. -/
theorem C10_merge_preserves_shape_witness :
    Config.update_config
        (ConfigTree.mapping [("a", ConfigTree.scalar (.str "x")),
          ("s", ConfigTree.sequence [ConfigTree.scalar (.str "<k>")])])
        [("k", "v")]
      = (ConfigTree.mapping [("a", ConfigTree.scalar (.str "x")),
          ("s", ConfigTree.sequence [ConfigTree.scalar (.str "v")])], true) ∧
    sameShape
        (ConfigTree.mapping [("a", ConfigTree.scalar (.str "x")),
          ("s", ConfigTree.sequence [ConfigTree.scalar (.str "<k>")])])
        (ConfigTree.mapping [("a", ConfigTree.scalar (.str "x")),
          ("s", ConfigTree.sequence [ConfigTree.scalar (.str "v")])]) = true :=
  ⟨rfl,
    C10_merge_preserves_shape
      (ConfigTree.mapping [("a", ConfigTree.scalar (.str "x")),
        ("s", ConfigTree.sequence [ConfigTree.scalar (.str "<k>")])])
      [("k", "v")]
      (ConfigTree.mapping [("a", ConfigTree.scalar (.str "x")),
        ("s", ConfigTree.sequence [ConfigTree.scalar (.str "v")])]) rfl⟩

namespace Config

/-- OmegaConf setattr on a DictConfig (python attribute assignment): replace
the value in place when the key exists, append the new pair otherwise. -/
def setEntry (es : List (String × ConfigTree)) (k : String) (v : ConfigTree) :
    List (String × ConfigTree) :=
  if (es.lookup k).isSome then es.map (fun p => if p.1 = k then (k, v) else p)
  else es ++ [(k, v)]

/-- The condition of config.py lines 133 and 136:
not hasattr(config, f) or getattr(config, f) is None.  With OmegaConf 2.x,
hasattr is false exactly when the key is absent (attribute access raises
ConfigAttributeError, an AttributeError), and a present null value is
returned as python None. -/
def needsDefault (es : List (String × ConfigTree)) (k : String) : Bool :=
  match es.lookup k with
  | none => true
  | some (.scalar .null) => true
  | some _ => false

/-- The second statement of fill_missing_fields (config.py lines 136-137):
set callbacks to an empty ListConfig when absent or null. -/
def fillCallbacks (es : List (String × ConfigTree)) : List (String × ConfigTree) :=
  if needsDefault es "callbacks" then setEntry es "callbacks" (.sequence []) else es

/-- Config.fill_missing_fields (config.py lines 122-138) on the entry list of
a mapping root: set tools to an empty DictConfig when absent or null (lines
133-134), then set callbacks to an empty ListConfig when absent or null
(lines 136-137). -/
def fill_missing_fields (es : List (String × ConfigTree)) :
    List (String × ConfigTree) :=
  if needsDefault es "tools" then fillCallbacks (setEntry es "tools" (.mapping []))
  else fillCallbacks es

/-- Config.is_workflow (config.py lines 140-151) on the entry list of a
mapping root.  none models an escaping exception: when the name key is absent
the attribute access config.name itself raises ConfigAttributeError, and when
it is null the assert on line 150 fires (config.name is None); otherwise the
result is the python membership test
config.name in [workflow.yaml, workflow.yml], which is false for any value
that is not one of those two strings. -/
def is_workflow (es : List (String × ConfigTree)) : Option Bool :=
  match es.lookup "name" with
  | none => none
  | some (.scalar .null) => none
  | some (.scalar (.str s)) => some (s == "workflow.yaml" || s == "workflow.yml")
  | some _ => some false

/-- Python truthiness of the values seen in a configuration tree: None, an
empty string, zero, false, and empty containers are falsy. -/
def truthy : ConfigTree → Bool
  | .scalar (.str s) => !s.data.isEmpty
  | .scalar (.int n) => n != 0
  | .scalar (.bool b) => b
  | .scalar .null => false
  | .mapping es => !es.isEmpty
  | .sequence xs => !xs.isEmpty

/-- Python getattr(t, k, d) over OmegaConf values: a DictConfig returns the
value stored at k and raises ConfigAttributeError (an AttributeError, caught
by getattr which then returns the default) when k is absent; any non-mapping
value has no such attribute, so the default is returned as well. -/
def getattr_with_default (t : ConfigTree) (k : String) (d : ConfigTree) :
    ConfigTree :=
  match t with
  | .mapping es =>
    match es.lookup k with
    | some v => v
    | none => d
  | _ => d

/-- Config.convert_mcp_servers_to_json (config.py lines 233-255) on the entry
list of a mapping root.  servers starts as a single mcpServers mapping; when
getattr(config, tools, None) is truthy the code iterates config.tools.items()
- which raises (none) unless tools is a mapping - and keeps every entry whose
mcp attribute read by getattr(server_config, mcp, True) is truthy, inserting
a deep copy of the whole entry sub-tree (deep copying is the identity on
immutable trees). -/
def convert_mcp_servers_to_json (es : List (String × ConfigTree)) :
    Option (List (String × ConfigTree)) :=
  let tools := getattr_with_default (.mapping es) "tools" (.scalar .null)
  if truthy tools then
    match tools with
    | .mapping ts =>
      some [("mcpServers", ConfigTree.mapping
        (ts.filter (fun p =>
          truthy (getattr_with_default p.2 "mcp" (.scalar (.bool true))))))]
    | _ => none
  else some [("mcpServers", .mapping [])]

end Config

/-- C4: counterexample to the claimed projection.  On the tools mapping with
entries a (mcp true, x 1), b (mcp false, x 2), c (x 3 only), the claim says
the result is mcpServers with a mapped to only x 1 and c to x 3.  The code
inserts a deep copy of the whole sub-tree of each kept entry, so the mcp
attribute of a is not stripped and the claimed value is not the result. -/
theorem C4_counterexample :
    Config.convert_mcp_servers_to_json
        [("tools", ConfigTree.mapping
          [("a", ConfigTree.mapping
            [("mcp", ConfigTree.scalar (.bool true)), ("x", ConfigTree.scalar (.int 1))]),
           ("b", ConfigTree.mapping
            [("mcp", ConfigTree.scalar (.bool false)), ("x", ConfigTree.scalar (.int 2))]),
           ("c", ConfigTree.mapping [("x", ConfigTree.scalar (.int 3))])])]
      ≠ some [("mcpServers", ConfigTree.mapping
          [("a", ConfigTree.mapping [("x", ConfigTree.scalar (.int 1))]),
           ("c", ConfigTree.mapping [("x", ConfigTree.scalar (.int 3))])])] := by decide

/-- C4 amended: on the same tools mapping the projection returns exactly
mcpServers with a mapped to its full sub-tree (mcp true, x 1) and c to its
sub-tree (x 3): b is excluded because its mcp attribute is false, c is
included because the mcp attribute defaults to true, and each included
sub-tree is copied whole - the mcp attribute is not removed. -/
theorem C4_projection_keeps_mcp_attribute :
    Config.convert_mcp_servers_to_json
        [("tools", ConfigTree.mapping
          [("a", ConfigTree.mapping
            [("mcp", ConfigTree.scalar (.bool true)), ("x", ConfigTree.scalar (.int 1))]),
           ("b", ConfigTree.mapping
            [("mcp", ConfigTree.scalar (.bool false)), ("x", ConfigTree.scalar (.int 2))]),
           ("c", ConfigTree.mapping [("x", ConfigTree.scalar (.int 3))])])]
      = some [("mcpServers", ConfigTree.mapping
          [("a", ConfigTree.mapping
            [("mcp", ConfigTree.scalar (.bool true)), ("x", ConfigTree.scalar (.int 1))]),
           ("c", ConfigTree.mapping [("x", ConfigTree.scalar (.int 3))])])] := rfl


/-- Unfolding of List.lookup at a cons cell whose key matches. -/
theorem lookup_cons_true {α : Type} (a k : String) (b : α) (r : List (String × α))
    (h : (a == k) = true) : List.lookup a ((k, b) :: r) = some b := by
  rw [List.lookup, h]

/-- Unfolding of List.lookup at a cons cell whose key does not match. -/
theorem lookup_cons_false {α : Type} (a k : String) (b : α) (r : List (String × α))
    (h : (a == k) = false) : List.lookup a ((k, b) :: r) = List.lookup a r := by
  rw [List.lookup, h]

namespace Config

theorem lookup_map_upsert_self (k : String) (v : ConfigTree) :
    ∀ es : List (String × ConfigTree), (es.lookup k).isSome = true →
      (es.map (fun p => if p.1 = k then (k, v) else p)).lookup k = some v := by
  intro es
  induction es with
  | nil => intro h; simp at h
  | cons p r ih =>
    intro h
    obtain ⟨a, b⟩ := p
    by_cases hak : a = k
    · subst hak
      simp only [List.map_cons, if_true, eq_self_iff_true]
      exact lookup_cons_true a a v _ (beq_self_eq_true a)
    · have h2 : (k == a) = false := by simp [Ne.symm hak]
      rw [lookup_cons_false k a b r h2] at h
      simp only [List.map_cons]
      rw [show (if ((a, b) : String × ConfigTree).1 = k then (k, v) else (a, b))
            = (a, b) from by simp [hak]]
      rw [lookup_cons_false k a b _ h2]
      exact ih h

theorem lookup_append_single_self (k : String) (v : ConfigTree) :
    ∀ es : List (String × ConfigTree), es.lookup k = none →
      (es ++ [(k, v)]).lookup k = some v := by
  intro es
  induction es with
  | nil =>
    intro _
    rw [List.nil_append]
    exact lookup_cons_true k k v [] (beq_self_eq_true k)
  | cons p r ih =>
    intro h
    obtain ⟨a, b⟩ := p
    cases h2 : (k == a) with
    | true => rw [lookup_cons_true k a b r h2] at h; simp at h
    | false =>
      rw [lookup_cons_false k a b r h2] at h
      rw [List.cons_append, lookup_cons_false k a b _ h2]
      exact ih h

/-- Looking up the assigned key after a setattr yields the assigned value. -/
theorem lookup_setEntry_self (es : List (String × ConfigTree)) (k : String)
    (v : ConfigTree) : (setEntry es k v).lookup k = some v := by
  rw [setEntry]
  cases hlk : (es.lookup k).isSome with
  | true => simp only [hlk, if_true]; exact lookup_map_upsert_self k v es hlk
  | false =>
    simp only [hlk, Bool.false_eq_true, if_false]
    refine lookup_append_single_self k v es ?_
    cases h : es.lookup k with
    | none => rfl
    | some w => rw [h] at hlk; simp at hlk

theorem lookup_map_upsert_ne (k k2 : String) (v : ConfigTree) (hne : k2 ≠ k) :
    ∀ es : List (String × ConfigTree),
      (es.map (fun p => if p.1 = k then (k, v) else p)).lookup k2 = es.lookup k2 := by
  intro es
  induction es with
  | nil => rfl
  | cons p r ih =>
    obtain ⟨a, b⟩ := p
    by_cases hak : a = k
    · subst hak
      have h2 : (k2 == a) = false := by simp [hne]
      simp only [List.map_cons, if_true, eq_self_iff_true]
      rw [lookup_cons_false k2 a v _ h2, lookup_cons_false k2 a b r h2]
      exact ih
    · simp only [List.map_cons]
      rw [show (if ((a, b) : String × ConfigTree).1 = k then (k, v) else (a, b))
            = (a, b) from by simp [hak]]
      cases h2 : (k2 == a) with
      | true => rw [lookup_cons_true k2 a b _ h2, lookup_cons_true k2 a b r h2]
      | false =>
        rw [lookup_cons_false k2 a b _ h2, lookup_cons_false k2 a b r h2]
        exact ih

theorem lookup_append_single_ne (k k2 : String) (v : ConfigTree) (hne : k2 ≠ k) :
    ∀ es : List (String × ConfigTree),
      (es ++ [(k, v)]).lookup k2 = es.lookup k2 := by
  intro es
  induction es with
  | nil =>
    rw [List.nil_append, lookup_cons_false k2 k v [] (by simp [hne])]
  | cons p r ih =>
    obtain ⟨a, b⟩ := p
    cases h2 : (k2 == a) with
    | true => rw [List.cons_append, lookup_cons_true k2 a b _ h2,
        lookup_cons_true k2 a b r h2]
    | false =>
      rw [List.cons_append, lookup_cons_false k2 a b _ h2,
        lookup_cons_false k2 a b r h2]
      exact ih

/-- A setattr of one key does not change the lookup of another key. -/
theorem lookup_setEntry_ne (es : List (String × ConfigTree)) (k k2 : String)
    (v : ConfigTree) (hne : k2 ≠ k) :
    (setEntry es k v).lookup k2 = es.lookup k2 := by
  rw [setEntry]
  cases hlk : (es.lookup k).isSome with
  | true => simp only [hlk, if_true]; exact lookup_map_upsert_ne k k2 v hne es
  | false =>
    simp only [hlk, Bool.false_eq_true, if_false]
    exact lookup_append_single_ne k k2 v hne es

end Config

namespace Config

/-- The callbacks statement does not touch the tools entry. -/
theorem fillCallbacks_lookup_tools (es : List (String × ConfigTree)) :
    (fillCallbacks es).lookup "tools" = es.lookup "tools" := by
  rw [fillCallbacks]
  cases h : needsDefault es "callbacks" with
  | true =>
    simp only [if_true]
    exact lookup_setEntry_ne es "callbacks" "tools" _ (by decide)
  | false => simp [h]

/-- The callbacks entry after the callbacks statement. -/
theorem fillCallbacks_lookup_callbacks (es : List (String × ConfigTree)) :
    (fillCallbacks es).lookup "callbacks"
      = (if needsDefault es "callbacks" then some (ConfigTree.sequence [])
          else es.lookup "callbacks") := by
  rw [fillCallbacks]
  cases h : needsDefault es "callbacks" with
  | true =>
    simp only [if_true]
    exact lookup_setEntry_self es "callbacks" _
  | false => simp [h]

/-- Equal lookups give equal default conditions. -/
theorem needsDefault_ext (es1 es2 : List (String × ConfigTree)) (k : String)
    (h : es1.lookup k = es2.lookup k) : needsDefault es1 k = needsDefault es2 k := by
  rw [needsDefault, needsDefault, h]

/-- The tools entry after fill_missing_fields. -/
theorem fill_lookup_tools (es : List (String × ConfigTree)) :
    (fill_missing_fields es).lookup "tools"
      = (if needsDefault es "tools" then some (ConfigTree.mapping [])
          else es.lookup "tools") := by
  rw [fill_missing_fields]
  cases h : needsDefault es "tools" with
  | true =>
    simp only [if_true]
    rw [fillCallbacks_lookup_tools]
    exact lookup_setEntry_self es "tools" _
  | false =>
    simp only [Bool.false_eq_true, if_false]
    rw [fillCallbacks_lookup_tools]

/-- The callbacks entry after fill_missing_fields. -/
theorem fill_lookup_callbacks (es : List (String × ConfigTree)) :
    (fill_missing_fields es).lookup "callbacks"
      = (if needsDefault es "callbacks" then some (ConfigTree.sequence [])
          else es.lookup "callbacks") := by
  rw [fill_missing_fields]
  cases h : needsDefault es "tools" with
  | true =>
    simp only [if_true]
    rw [fillCallbacks_lookup_callbacks]
    have hl : (setEntry es "tools" (ConfigTree.mapping [])).lookup "callbacks"
        = es.lookup "callbacks" :=
      lookup_setEntry_ne es "tools" "callbacks" _ (by decide)
    rw [needsDefault_ext _ _ _ hl, hl]
  | false =>
    simp only [Bool.false_eq_true, if_false]
    rw [fillCallbacks_lookup_callbacks]

/-- When neither default condition fires, fill_missing_fields is the
identity. -/
theorem fill_noop (es : List (String × ConfigTree))
    (h1 : needsDefault es "tools" = false)
    (h2 : needsDefault es "callbacks" = false) : fill_missing_fields es = es := by
  rw [fill_missing_fields, h1]
  simp only [Bool.false_eq_true, if_false]
  rw [fillCallbacks, h2]
  simp

/-- After fill_missing_fields the tools entry never needs a default. -/
theorem needsDefault_fill_tools (es : List (String × ConfigTree)) :
    needsDefault (fill_missing_fields es) "tools" = false := by
  rw [needsDefault, fill_lookup_tools]
  cases h : needsDefault es "tools" with
  | true => simp
  | false =>
    simp only [Bool.false_eq_true, if_false]
    rw [needsDefault] at h
    exact h

/-- After fill_missing_fields the callbacks entry never needs a default. -/
theorem needsDefault_fill_callbacks (es : List (String × ConfigTree)) :
    needsDefault (fill_missing_fields es) "callbacks" = false := by
  rw [needsDefault, fill_lookup_callbacks]
  cases h : needsDefault es "callbacks" with
  | true => simp
  | false =>
    simp only [Bool.false_eq_true, if_false]
    rw [needsDefault] at h
    exact h

end Config

/-- C8: fill_missing_fields is idempotent, and a single application sets the
tools entry to an empty mapping exactly when it is absent or null, sets the
callbacks entry to an empty sequence exactly when it is absent or null, and
leaves each of the two entries unchanged when it is present and non-null
(needsDefault is the condition of config.py lines 133 and 136: the key is
absent or its value is null). -/
theorem C8_fill_missing_fields_idempotent (es : List (String × ConfigTree)) :
    Config.fill_missing_fields (Config.fill_missing_fields es)
      = Config.fill_missing_fields es ∧
    (Config.fill_missing_fields es).lookup "tools"
      = (if Config.needsDefault es "tools" then some (ConfigTree.mapping [])
          else es.lookup "tools") ∧
    (Config.fill_missing_fields es).lookup "callbacks"
      = (if Config.needsDefault es "callbacks" then some (ConfigTree.sequence [])
          else es.lookup "callbacks") :=
  ⟨Config.fill_noop _ (Config.needsDefault_fill_tools es)
      (Config.needsDefault_fill_callbacks es),
    Config.fill_lookup_tools es, Config.fill_lookup_callbacks es⟩

/-- C9: is_workflow returns true exactly when the name entry holds the string
workflow.yaml or workflow.yml; it raises instead of returning (none) exactly
when the name entry is absent (the attribute access config.name raises
ConfigAttributeError) or null (the assert on config.py line 150 fires); on
any other value, in particular agent.yaml and agent.yml, it returns false. -/
theorem C9_is_workflow_classification (es : List (String × ConfigTree)) :
    (Config.is_workflow es = none ↔
      (es.lookup "name" = none ∨
        es.lookup "name" = some (ConfigTree.scalar .null))) ∧
    (Config.is_workflow es = some true ↔
      (es.lookup "name" = some (ConfigTree.scalar (.str "workflow.yaml")) ∨
        es.lookup "name" = some (ConfigTree.scalar (.str "workflow.yml")))) ∧
    Config.is_workflow
        (Config.setEntry es "name" (ConfigTree.scalar (.str "agent.yaml")))
      = some false ∧
    Config.is_workflow
        (Config.setEntry es "name" (ConfigTree.scalar (.str "agent.yml")))
      = some false := by
  refine ⟨?_, ?_, ?_, ?_⟩
  · cases hn : es.lookup "name" with
    | none => simp [Config.is_workflow, hn]
    | some v =>
      cases v with
      | scalar sv =>
        cases sv with
        | str s => simp [Config.is_workflow, hn]
        | int n => simp [Config.is_workflow, hn]
        | bool b => simp [Config.is_workflow, hn]
        | null => simp [Config.is_workflow, hn]
      | mapping ms => simp [Config.is_workflow, hn]
      | sequence ss => simp [Config.is_workflow, hn]
  · cases hn : es.lookup "name" with
    | none => simp [Config.is_workflow, hn]
    | some v =>
      cases v with
      | scalar sv =>
        cases sv with
        | str s => simp [Config.is_workflow, hn]
        | int n => simp [Config.is_workflow, hn]
        | bool b => simp [Config.is_workflow, hn]
        | null => simp [Config.is_workflow, hn]
      | mapping ms => simp [Config.is_workflow, hn]
      | sequence ss => simp [Config.is_workflow, hn]
  · have hA := Config.lookup_setEntry_self es "name"
      (ConfigTree.scalar (.str "agent.yaml"))
    simp [Config.is_workflow, hA]
  · have hA := Config.lookup_setEntry_self es "name"
      (ConfigTree.scalar (.str "agent.yml"))
    simp [Config.is_workflow, hA]
